import Mathlib

/-
Verification development for the control-protocol engine of a Python SDK
that drives an agent CLI over line-delimited JSON on a child process's
standard streams.  The definitions below are a shallow embedding of the
source modules:

  * `_internal/query.py`   — the protocol engine (`Query`), its reader loop,
    inbound control-request dispatch, outbound request correlation,
    input streaming, and the nested JSON-RPC bridge (`process_mcp_request`);
  * `mcp_utils.py`         — in-process tool server construction (`call_tool`);
  * `models/permissions.py`— permission results and their wire serialization;
  * `models/options.py` and the two consumer façades (`_internal/client.py`
    `process_query`, `client.py` `ClaudeSDKClient.connect`) — option
    validation.

JSON objects are association lists with Python `dict` semantics (unique
keys, insertion order, last assignment wins); exceptions are modelled with
`Except String`; user callbacks are modelled as Lean functions returning
`Except` so that a raising callback is representable.
-/

namespace ClawdSdk

/-- JSON values as decoded from the line-delimited stream. -/
inductive JVal where
  | null
  | bool (b : Bool)
  | num (n : Int)
  | str (s : String)
  | arr (elems : List JVal)
  | obj (fields : List (String × JVal))
deriving Repr

/-- Python `d.get(key)` on an association list. -/
def lookupKey {α : Type} : List (String × α) → String → Option α
  | [], _ => none
  | (k, v) :: rest, key => if k = key then some v else lookupKey rest key

/-- Python `d[key] = v`: update the entry in place if the key exists
(keeping its position), otherwise append at the end. -/
def setKey {α : Type} : List (String × α) → String → α → List (String × α)
  | [], k, v => [(k, v)]
  | (k', v') :: rest, k, v =>
      if k' = k then (k, v) :: rest else (k', v') :: setKey rest k v

/-- Python `d.pop(key, None)`: remove the entry for a key. -/
def removeKey {α : Type} : List (String × α) → String → List (String × α)
  | [], _ => []
  | (k', v') :: rest, k =>
      if k' = k then removeKey rest k else (k', v') :: removeKey rest k

/-- Python dict comprehension over a list of key/value pairs: assignments in
order, a later duplicate key overwriting the earlier value. -/
def buildDict {α : Type} (items : List (String × α)) : List (String × α) :=
  items.foldl (fun d kv => setKey d kv.1 kv.2) []

/-- Python `d.get(key)` on a decoded JSON value (`None` when not an object
or the key is absent). -/
def jGet (j : JVal) (key : String) : Option JVal :=
  match j with
  | .obj fields => lookupKey fields key
  | _ => none

/-- Extract a string-valued field, as the engine does when it compares a
field against string constants. -/
def jGetStr (j : JVal) (key : String) : Option String :=
  match jGet j key with
  | some (.str s) => some s
  | _ => none

/-- The frame discriminator `message.get("type")` used by the reader loop. -/
def typeOf (msg : JVal) : Option String := jGetStr msg "type"

/-- A resolved correlation entry: either the raw `control_response` body
stored by the reader, or the exception stored for an error-subtype response
or a fatal reader error (`pending_control_results` values). -/
inductive PendingResult where
  | ok (response : JVal)
  | exn (err : JVal)
deriving Repr

/-- The engine's correlation tables: `pending_control_responses` (ids whose
waiter event is registered) and `pending_control_results`. -/
structure CorrelationState where
  pendingResponses : List String
  pendingResults : List (String × PendingResult)
deriving Repr

/-- How the reader loop (`_read_messages`) routes one inbound frame. -/
inductive Routed where
  | response (msg : JVal)
  | request (msg : JVal)
  | cancelIgnored
  | conversation (isResult : Bool) (msg : JVal)
deriving Repr

/-- The `match message.get("type")` dispatch of `_read_messages`: control
frames are consumed by the engine, a `result` frame additionally sets the
first-result event, and every other frame is pushed onto the conversation
channel unchanged. -/
def routeFrame (msg : JVal) : Routed :=
  match typeOf msg with
  | some "control_response" => .response msg
  | some "control_request" => .request msg
  | some "control_cancel_request" => .cancelIgnored
  | some "result" => .conversation true msg
  | _ => .conversation false msg

/-- Python `response.get("error", "Unknown error")`. -/
def errVal (j : JVal) : JVal := (jGet j "error").getD (JVal.str "Unknown error")

/-- The `control_response` branch of the reader loop: resolve the matching
correlation entry (error subtype stores the exception, anything else stores
the whole response body) and wake the waiter; a request id that is not
pending is dropped without effect. -/
def readerHandleControlResponse (st : CorrelationState) (msg : JVal) : CorrelationState :=
  let response := (jGet msg "response").getD (JVal.obj [])
  match jGetStr response "request_id" with
  | some rid =>
    if rid ∈ st.pendingResponses then
      if jGetStr response "subtype" = some "error" then
        { st with pendingResults := setKey st.pendingResults rid (.exn (errVal response)) }
      else
        { st with pendingResults := setKey st.pendingResults rid (.ok response) }
    else st
  | none => st

/-- The internal `error` sentinel frame pushed by the reader on a fatal
transport error. -/
def errorSentinel (e : String) : JVal :=
  JVal.obj [("type", JVal.str "error"), ("error", JVal.str e)]

/-- The internal `end` sentinel frame pushed when the reader exits. -/
def endSentinel : JVal := JVal.obj [("type", JVal.str "end")]

/-- The loop in the reader's fatal-error handler: for every registered
waiter id that has no result yet, store the reader's exception and set the
event. -/
def failPending (rids : List String) (results : List (String × PendingResult))
    (e : String) : List (String × PendingResult) :=
  rids.foldl
    (fun acc rid =>
      if (lookupKey acc rid).isNone then setKey acc rid (.exn (JVal.str e)) else acc)
    results

/-- The `except Exception` / `finally` tail of `_read_messages`: fail all
unresolved waiters with the error, then push the `error` sentinel followed
by the `end` sentinel onto the conversation channel. -/
def readerOnFatalError (st : CorrelationState) (e : String) :
    CorrelationState × List JVal :=
  ({ st with pendingResults := failPending st.pendingResponses st.pendingResults e },
   [errorSentinel e, endSentinel])

/-- How `receive_messages` finishes: normal termination on the `end`
sentinel, an exception on the `error` sentinel, or still waiting because the
channel content ran out. -/
inductive RecvTerm where
  | ended
  | errored (err : JVal)
  | starved
deriving Repr

/-- `receive_messages` applied to the queued channel content: yield
conversation messages until an `end` sentinel (stop) or an `error` sentinel
(raise). -/
def receiveMessages : List JVal → List JVal × RecvTerm
  | [] => ([], .starved)
  | m :: rest =>
    match typeOf m with
    | some "end" => ([], .ended)
    | some "error" => ([], .errored (errVal m))
    | _ =>
      let r := receiveMessages rest
      (m :: r.1, r.2)

/-- Remove every occurrence of an id from the waiter list
(`pending_control_responses.pop(request_id, None)` on the key set). -/
def removeId : List String → String → List String
  | [], _ => []
  | x :: rest, rid => if x = rid then removeId rest rid else x :: removeId rest rid

/-- The outcome delivered to the caller of `_send_control_request`. -/
inductive SendOutcome where
  | success (payload : JVal)
  | protocolError (err : JVal)
  | writeError (e : String)
  | timeout (subtypeName : String)
deriving Repr

/-- Python `result.get("response", {})` followed by the
`isinstance(response_data, dict)` guard. -/
def responsePayload (resp : JVal) : JVal :=
  match jGet resp "response" with
  | some (JVal.obj fields) => JVal.obj fields
  | _ => JVal.obj []

/-- One complete run of `_send_control_request` for a fresh request id.
`writeResult` is the outcome of the initial `transport.write`;
`resolution` is what the reader stored for this id before setting the
event (`none` models the wait ending in `fail_after` timeout).  Mirrors the
source order: register the waiter, write, then either propagate the write
error (no cleanup in the source), or wait and clean up both tables. -/
def sendControlRequestRun (st : CorrelationState) (rid : String) (subtypeName : String)
    (writeResult : Except String Unit) (resolution : Option PendingResult) :
    SendOutcome × CorrelationState :=
  let st₁ : CorrelationState := { st with pendingResponses := rid :: st.pendingResponses }
  match writeResult with
  | .error e => (.writeError e, st₁)
  | .ok () =>
    match resolution with
    | none =>
      (.timeout subtypeName,
       { pendingResponses := removeId st₁.pendingResponses rid
         pendingResults := removeKey st₁.pendingResults rid })
    | some r =>
      let st₂ : CorrelationState := { st₁ with pendingResults := setKey st₁.pendingResults rid r }
      let st₃ : CorrelationState :=
        { pendingResponses := removeId st₂.pendingResponses rid
          pendingResults := removeKey st₂.pendingResults rid }
      match r with
      | .exn e => (.protocolError e, st₃)
      | .ok resp => (.success (responsePayload resp), st₃)

/-- Single ASCII apostrophe, used in error texts such as the missing-tool
message. -/
def sq : String := String.singleton (Char.ofNat 39)

/-- Context record built by `_handle_permission_request` for the callback
(`ToolPermissionContext`); the abort signal is always absent. -/
structure PermissionContext where
  toolUseId : String
  suggestions : List JVal
  blockedPath : Option String

/-- `PermissionResultAllow` / `PermissionResultDeny`.  Permission updates
are kept in already-serialized form, their own `to_dict` being out of the
claims' scope. -/
inductive PermissionResult where
  | allow (updatedInput : Option JVal) (updatedPermissions : Option (List JVal))
  | deny (message : String) (interrupt : Bool)
deriving Repr

/-- `PermissionResultAllow.to_dict` (keys added only when the field is set)
and `PermissionResultDeny.to_dict` (a plain `asdict`). -/
def permissionResultToDict : PermissionResult → JVal
  | .allow ui ups =>
    JVal.obj
      ([("behavior", JVal.str "allow")]
        ++ (match ui with
            | some v => [("updatedInput", v)]
            | none => [])
        ++ (match ups with
            | some ps => [("updatedPermissions", JVal.arr ps)]
            | none => []))
  | .deny m i =>
    JVal.obj
      [("behavior", JVal.str "deny"), ("message", JVal.str m),
       ("interrupt", JVal.bool i)]

/-- A consumer permission callback (`CanUseTool`); `Except.error` models
the callback raising. -/
def CanUseToolFn : Type :=
  String → JVal → PermissionContext → Except String PermissionResult

/-- A consumer hook callable, invoked with the input and the tool-use id
(the context argument is the constant absent signal); returns the hook
output dictionary. -/
def HookCallbackFn : Type :=
  JVal → Option String → Except String (List (String × JVal))

/-- A tool registered on an in-process MCP server (`SdkMcpTool`); the
handler returns the result dictionary. -/
structure ToolDef where
  name : String
  description : String
  inputSchema : JVal
  handler : JVal → Except String JVal

/-- An in-process MCP server created by `create_sdk_mcp_server`: the
`tools/list` and `tools/call` request handlers are registered exactly when
the tool list is non-empty. -/
structure McpServerModel where
  name : String
  version : Option String
  tools : List ToolDef

/-- The engine's callback registries: the optional permission callback, the
hook callbacks keyed by assigned id, and the in-process servers by name. -/
structure CallbackRegistry where
  canUseTool : Option CanUseToolFn
  hookCallbacks : List (String × HookCallbackFn)
  sdkMcpServers : List (String × McpServerModel)

/-- A parsed inbound control request (`ControlRequestUnion`). -/
inductive ControlRequest where
  | canUseTool (toolName : String) (input : JVal) (toolUseId : String)
      (permissionSuggestions : Option (List JVal)) (blockedPath : Option String)
  | hookCallback (callbackId : String) (input : JVal) (toolUseId : Option String)
  | mcpMessage (serverName : String) (message : JVal)
  | interrupt
  | initRequest
  | setPermissionMode
  | rewindFiles
  | stopTask

/-- `_handle_permission_request`: require the callback, build the context,
invoke the callback, and substitute the original input into an allow result
whose `updated_input` is absent. -/
def handlePermissionRequest (reg : CallbackRegistry) (toolName : String) (input : JVal)
    (toolUseId : String) (permissionSuggestions : Option (List JVal))
    (blockedPath : Option String) : Except String PermissionResult :=
  match reg.canUseTool with
  | none => .error "canUseTool callback is not provided"
  | some cb =>
    let ctx : PermissionContext :=
      { toolUseId := toolUseId
        suggestions := permissionSuggestions.getD []
        blockedPath := blockedPath }
    match cb toolName input ctx with
    | .error e => .error e
    | .ok (PermissionResult.allow none ups) => .ok (PermissionResult.allow (some input) ups)
    | .ok r => .ok r

/-- Python `s.rstrip("_")`: drop every trailing underscore. -/
def pyRstripUnderscore (s : String) : String :=
  String.mk ((s.data.reverse.dropWhile (fun c => c == '_')).reverse)

/-- `_handle_hook_callback`: look up the callback by id, invoke it, and
serialize its output with trailing underscores stripped from the keys
(a dict comprehension, so keys colliding after the strip overwrite). -/
def handleHookCallback (reg : CallbackRegistry) (callbackId : String) (input : JVal)
    (toolUseId : Option String) : Except String (List (String × JVal)) :=
  match lookupKey reg.hookCallbacks callbackId with
  | none => .error ("No hook callback found for ID: " ++ callbackId)
  | some cb =>
    match cb input toolUseId with
    | .error e => .error e
    | .ok hookOutput =>
      .ok (buildDict (hookOutput.map (fun kv => (pyRstripUnderscore kv.1, kv.2))))

/-- `get_jsonrpc_request_id`: the `id` field when it is a string or an
integer (Python booleans being integers), else `0`. -/
def getJsonrpcRequestId (message : JVal) : JVal :=
  match jGet message "id" with
  | some (JVal.str s) => JVal.str s
  | some (JVal.num n) => JVal.num n
  | some (JVal.bool b) => JVal.bool b
  | _ => JVal.num 0

/-- A serialized `JSONRPCResultResponse`. -/
def jrpcResult (msgId : JVal) (result : JVal) : JVal :=
  JVal.obj [("jsonrpc", JVal.str "2.0"), ("id", msgId), ("result", result)]

/-- A serialized `JSONRPCErrorResponse` with a `JSONRPCError` body. -/
def jrpcError (msgId : JVal) (code : Int) (message : String) : JVal :=
  JVal.obj [("jsonrpc", JVal.str "2.0"), ("id", msgId),
    ("error", JVal.obj [("code", JVal.num code), ("message", JVal.str message)])]

/-- The effect on one content item of `call_tool` (mcp_utils) composed with
`process_content_blocks` (query.py): text and image items pass through,
document items survive through an embedded resource with the source
defaults applied, anything else is dropped. -/
def convertContentItem (item : JVal) : Option JVal :=
  match jGetStr item "type" with
  | some "text" =>
    match jGet item "text" with
    | some t => some (JVal.obj [("type", JVal.str "text"), ("text", t)])
    | none => none
  | some "image" =>
    match jGet item "data", jGet item "mimeType" with
    | some d, some m =>
      some (JVal.obj [("type", JVal.str "image"), ("data", d), ("mimeType", m)])
    | _, _ => none
  | some "document" =>
    let source := (jGet item "source").getD (JVal.obj [])
    let typ := (jGetStr source "type").getD "base64"
    let mime := (jGetStr source "media_type").getD "application/pdf"
    let data := (jGet source "data").getD (JVal.str "")
    some (JVal.obj [("type", JVal.str "document"),
      ("source", JVal.obj [("type", JVal.str typ), ("media_type", JVal.str mime),
        ("data", data)])])
  | _ => none

/-- The `call_tool` handler registered by `create_sdk_mcp_server`: build the
tool map (a dict comprehension over the tool list), raise `ValueError` when
the name is absent, otherwise run the handler and convert its content list
(a non-list content value contributes nothing). -/
def callTool (tools : List ToolDef) (name : String) (arguments : JVal) :
    Except String (List JVal) :=
  let toolMap := buildDict (tools.map (fun t => (t.name, t)))
  match lookupKey toolMap name with
  | none => .error ("Tool " ++ sq ++ name ++ sq ++ " not found")
  | some td =>
    match td.handler arguments with
    | .error e => .error e
    | .ok result =>
      let content :=
        match jGet result "content" with
        | some (JVal.arr items) => items
        | _ => []
      .ok (content.filterMap convertContentItem)

/-- What the CallToolRequest handler installed by the external mcp
library's call_tool decorator hands back: the content list and the
CallToolResult isError flag. -/
structure CallToolOutcome where
  content : List JVal
  isError : Bool
deriving Repr

/-- The CallToolRequest handler wrapping `call_tool`: on completion the
returned content list is wrapped in a CallToolResult with isError false;
an exception raised by the wrapped function — in particular the missing
tool ValueError — is caught by the wrapper and encoded as a CallToolResult
holding one text content item with the exception text and isError true
(the content shown here after the `process_content_blocks` round trip). -/
def callToolWrapped (tools : List ToolDef) (name : String) (arguments : JVal) :
    CallToolOutcome :=
  match callTool tools name arguments with
  | .ok content => { content := content, isError := false }
  | .error e =>
      { content := [JVal.obj [("type", JVal.str "text"), ("text", JVal.str e)]]
        isError := true }

/-- The `tools/list` handler result: each tool reported with name,
description and input schema (schema synthesis from compact descriptors
happens at registration and is represented by the stored schema). -/
def listToolsResult (tools : List ToolDef) : JVal :=
  JVal.obj [("tools", JVal.arr (tools.map (fun td =>
    JVal.obj [("name", JVal.str td.name), ("description", JVal.str td.description),
      ("inputSchema", td.inputSchema)])))]

/-- `process_mcp_request` in query.py.  The method assertion sits before
the try block, so a frame without a string `method` raises out of the
function (an AssertionError with empty text); a failure inside the
dispatch is caught and encoded as JSON-RPC error -32603.  The guards on
`tools/list` and `tools/call` model `server.request_handlers.get(...)`:
those handlers exist exactly when the server holds registered tools.  The
`tools/call` handler is the external library's call_tool wrapper, which
catches exceptions itself, so a raising tool handler (or a missing tool)
yields a success result whose payload carries `is_error` — the except
clause here fires only for failures outside the wrapper, such as
params validation. -/
def processMcpRequest (server : McpServerModel) (message : JVal) : Except String JVal :=
  match jGetStr message "method" with
  | none => .error ""
  | some method =>
    let msgId := getJsonrpcRequestId message
    let inner : Except String JVal :=
      if method = "initialize" then
        .ok (jrpcResult msgId (JVal.obj
          [("protocolVersion", JVal.str "2024-11-05"),
           ("capabilities", JVal.obj [("tools", JVal.obj [])]),
           ("serverInfo", JVal.obj
             [("name", JVal.str server.name),
              ("version", JVal.str (server.version.getD "1.0.0"))])]))
      else if method = "tools/list" ∧ server.tools.isEmpty = false then
        .ok (jrpcResult msgId (listToolsResult server.tools))
      else if method = "tools/call" ∧ server.tools.isEmpty = false then
        let params := (jGet message "params").getD (JVal.obj [])
        let name := (jGetStr params "name").getD ""
        let arguments := (jGet params "arguments").getD (JVal.obj [])
        let result := callToolWrapped server.tools name arguments
        .ok (jrpcResult msgId (JVal.obj
          ([("content", JVal.arr result.content)]
            ++ (if result.isError then [("is_error", JVal.bool true)] else []))))
      else if method = "notifications/initialized" then
        .ok (jrpcResult msgId (JVal.obj []))
      else
        .ok (jrpcError msgId (-32601) ("Method " ++ sq ++ method ++ sq ++ " not found"))
    match inner with
    | .ok resp => .ok resp
    | .error e => .ok (jrpcError msgId (-32603) e)

/-- `_handle_sdk_mcp_request`: an unknown server name is answered directly
with JSON-RPC error -32601; a known server delegates to the bridge. -/
def handleSdkMcpRequest (servers : List (String × McpServerModel)) (serverName : String)
    (message : JVal) : Except String JVal :=
  match lookupKey servers serverName with
  | none =>
    .ok (jrpcError (getJsonrpcRequestId message) (-32601)
      ("Server " ++ sq ++ serverName ++ sq ++ " not found"))
  | some server => processMcpRequest server message

/-- The body of `_handle_control_request` up to the response write: run the
matching handler and collect either the response data or the text of the
exception it raised.  Interrupt and the outbound-only subtypes acknowledge
with an empty body. -/
def dispatchControlRequest (reg : CallbackRegistry) (req : ControlRequest) :
    Except String JVal :=
  match req with
  | .canUseTool toolName input toolUseId permissionSuggestions blockedPath =>
    match handlePermissionRequest reg toolName input toolUseId
        permissionSuggestions blockedPath with
    | .error e => .error e
    | .ok result => .ok (permissionResultToDict result)
  | .hookCallback callbackId input toolUseId =>
    match handleHookCallback reg callbackId input toolUseId with
    | .error e => .error e
    | .ok fields => .ok (JVal.obj fields)
  | .mcpMessage serverName message =>
    match handleSdkMcpRequest reg.sdkMcpServers serverName message with
    | .error e => .error e
    | .ok resp => .ok (JVal.obj [("mcp_response", resp)])
  | _ => .ok (JVal.obj [])

/-- An outbound `control_response` frame (`SDKControlResponse`): the
success shape carries the response data, the error shape the exception
text. -/
inductive OutFrame where
  | controlSuccess (requestId : String) (response : JVal)
  | controlError (requestId : String) (error : String)
deriving Repr

/-- The request id carried by a response frame. -/
def frameRequestId : OutFrame → String
  | .controlSuccess rid _ => rid
  | .controlError rid _ => rid

/-- Whether a response frame has the success subtype. -/
def frameIsSuccess : OutFrame → Bool
  | .controlSuccess _ _ => true
  | .controlError _ _ => false

/-- `_handle_control_request` as the list of transport writes it performs:
the try branch writes one success response, the except branch one error
response. -/
def handleControlRequest (reg : CallbackRegistry) (requestId : String)
    (req : ControlRequest) : List OutFrame :=
  match dispatchControlRequest reg req with
  | .ok responseData => [.controlSuccess requestId responseData]
  | .error e => [.controlError requestId e]

/-- A hook matcher record in the consumer-facing configuration
(`HookMatcher`): an optional tool-name filter, the hook callables
(represented by identifiers), and an optional per-matcher timeout. -/
structure HookMatcher where
  matcher : Option String
  hooks : List Nat
  timeout : Option Int
deriving Repr

/-- `convert_hooks_to_internal_format`: every event key of the input is
reproduced with its matcher records re-encoded field by field, including
events whose matcher list is empty. -/
def convertHooksToInternalFormat (hooks : List (String × List HookMatcher)) :
    List (String × List HookMatcher) :=
  hooks.map (fun ev => (ev.1, ev.2.map (fun m =>
    { matcher := m.matcher, hooks := m.hooks, timeout := m.timeout })))

/-- The `hooks` attribute set in `Query.__init__`:
`convert_hooks_to_internal_format(hooks) if hooks else` the empty mapping —
`None` and the empty mapping are falsy, any non-empty mapping is converted
even when all its matcher lists are empty. -/
def queryInitHooks (hooks : Option (List (String × List HookMatcher))) :
    List (String × List HookMatcher) :=
  match hooks with
  | none => []
  | some hs => if hs.isEmpty then [] else convertHooksToInternalFormat hs

/-- Total number of hook matchers registered across all events. -/
def hookMatcherCount (hooks : List (String × List HookMatcher)) : Nat :=
  (hooks.map (fun ev => ev.2.length)).sum

/-- The externally visible operations of a `stream_input` run. -/
inductive StreamAction where
  | write (frame : JVal)
  | waitFirstResult
  | endInput
deriving Repr

/-- The transport actions of a `stream_input` run in which every write
succeeds: write each frame, then — when the server map or the hooks map is
non-empty (`if self.sdk_mcp_servers or has_hooks`) — wait for the first
result or the stream-close timeout, then half-close stdin. -/
def streamInputTrace (hooks : List (String × List HookMatcher))
    (sdkMcpServers : List String) (stream : List JVal) : List StreamAction :=
  stream.map StreamAction.write
    ++ (if sdkMcpServers.isEmpty = false ∨ hooks.isEmpty = false then
          [StreamAction.waitFirstResult]
        else [])
    ++ [StreamAction.endInput]

/-- Whether a trace contains the first-result wait. -/
def hasWait : List StreamAction → Bool
  | [] => false
  | .waitFirstResult :: _ => true
  | _ :: rest => hasWait rest

/-- Whether a trace contains the stdin half-close. -/
def hasEndInput : List StreamAction → Bool
  | [] => false
  | .endInput :: _ => true
  | _ :: rest => hasEndInput rest

/-- One step of draining the input iterable: either the next frame was
obtained and written, or obtaining/writing it raised. -/
inductive StreamStep where
  | ok (frame : JVal)
  | fail (e : String)
deriving Repr

/-- The writes performed before the first failing step, with the failure. -/
def writesBeforeFail : List StreamStep → List StreamAction × Option String
  | [] => ([], none)
  | .ok f :: rest =>
    let r := writesBeforeFail rest
    (StreamAction.write f :: r.1, r.2)
  | .fail e :: _ => ([], some e)

/-- Whether draining the iterable fails at some step. -/
def hasFail : List StreamStep → Bool
  | [] => false
  | .fail _ :: _ => true
  | _ :: rest => hasFail rest

/-- Result of a `stream_input` run: the transport actions performed and the
exception escaping to the caller, if any. -/
structure StreamRunResult where
  actions : List StreamAction
  propagated : Option String
deriving Repr

/-- A full `stream_input` run.  The whole body sits in one try block whose
except clause logs and swallows the exception, so a failure while iterating
or writing skips the optional wait and the `end_input` call, and a failure
inside `end_input` itself is also swallowed.  A failure inside the wait
block is caught by the inner except and the run proceeds to `end_input`. -/
def streamInputRun (hooks : List (String × List HookMatcher)) (sdkMcpServers : List String)
    (steps : List StreamStep) (endInputResult : Except String Unit) : StreamRunResult :=
  match writesBeforeFail steps with
  | (written, some _) => { actions := written, propagated := none }
  | (written, none) =>
    let waitPart : List StreamAction :=
      if sdkMcpServers.isEmpty = false ∨ hooks.isEmpty = false then
        [StreamAction.waitFirstResult]
      else []
    match endInputResult with
    | .ok _ =>
      { actions := written ++ waitPart ++ [StreamAction.endInput], propagated := none }
    | .error _ =>
      { actions := written ++ waitPart ++ [StreamAction.endInput], propagated := none }

/-- The option fields involved in permission-callback validation; the
callback itself is represented by its presence. -/
structure OptionsModel where
  hasCanUseTool : Bool
  permissionPromptToolName : Option String
deriving Repr

/-- Python truthiness of an optional string field. -/
def optTruthy : Option String → Bool
  | none => false
  | some s => s != ""

/-- The kind of prompt handed to a façade. -/
inductive PromptKind where
  | simple
  | streaming
deriving Repr, DecidableEq

/-- The steps a façade performs once validation has passed. -/
inductive FacadeAction where
  | transportConnect
  | queryStart
  | engineInitStep
  | sendOrStreamInput
deriving Repr, DecidableEq

/-- `ClaudeAgentOptions.validate`: a permission callback combined with a
truthy permission-prompt-tool name raises `ValueError`. -/
def validateOptions (o : OptionsModel) : Except String Unit :=
  if o.hasCanUseTool && optTruthy o.permissionPromptToolName then
    .error ("can_use_tool callback cannot be used with permission_prompt_tool_name. "
      ++ "Please use one or the other.")
  else .ok ()

/-- The head of `InternalClient.process_query` up to the first transport
operation: with a permission callback, a string prompt and then a truthy
permission-prompt-tool name each raise `ValueError` before the transport is
created or connected, so a validation failure performs no engine or
transport action at all. -/
def processQueryRun (o : OptionsModel) (prompt : PromptKind) :
    Except String (List FacadeAction) :=
  if o.hasCanUseTool then
    if prompt = PromptKind.simple then
      .error ("can_use_tool callback requires streaming mode. "
        ++ "Please provide prompt as an AsyncIterable instead of a string.")
    else if optTruthy o.permissionPromptToolName then
      .error ("can_use_tool callback cannot be used with permission_prompt_tool_name. "
        ++ "Please use one or the other.")
    else
      .ok [FacadeAction.transportConnect, FacadeAction.queryStart,
        FacadeAction.engineInitStep, FacadeAction.sendOrStreamInput]
  else
    .ok [FacadeAction.transportConnect, FacadeAction.queryStart,
      FacadeAction.engineInitStep, FacadeAction.sendOrStreamInput]

/-- The head of `ClaudeSDKClient.connect`: `options.validate()` runs first,
then the string-prompt check, both before the transport is created or
connected. -/
def clientConnectRun (o : OptionsModel) (prompt : Option PromptKind) :
    Except String (List FacadeAction) :=
  match validateOptions o with
  | .error e => .error e
  | .ok _ =>
    if o.hasCanUseTool && prompt == some PromptKind.simple then
      .error ("can_use_tool callback requires streaming mode. "
        ++ "Please provide prompt as an AsyncIterable instead of a string.")
    else
      .ok [FacadeAction.transportConnect, FacadeAction.queryStart,
        FacadeAction.engineInitStep, FacadeAction.sendOrStreamInput]

/-- The request id of an inbound `control_response` frame:
`message.get("response", {}).get("request_id")` when it is a string. -/
def respRequestIdOf (msg : JVal) : Option String :=
  jGetStr ((jGet msg "response").getD (JVal.obj [])) "request_id"

/-- The numeric error code of a serialized JSON-RPC error response. -/
def jrpcErrorCode (resp : JVal) : Option Int :=
  match jGet resp "error" with
  | some errObj =>
    match jGet errObj "code" with
    | some (JVal.num n) => some n
    | _ => none
  | none => none

/-- The error code of a bridge outcome that returned a response. -/
def mcpErrorCode (r : Except String JVal) : Option Int :=
  match r with
  | .ok resp => jrpcErrorCode resp
  | .error _ => none

/-- A hook callback returning output under keyword-safe key spellings. -/
def sampleHookCb : HookCallbackFn := fun _ _ =>
  .ok [("async_", JVal.num 1), ("continue_", JVal.bool true),
    ("decision", JVal.str "block")]

/-- A registry holding only the sample hook callback under id `hook_0`. -/
def sampleHookReg : CallbackRegistry :=
  { canUseTool := none
    hookCallbacks := [("hook_0", sampleHookCb)]
    sdkMcpServers := [] }

/-- A permission callback that allows without an updated input. -/
def sampleAllowCb : CanUseToolFn := fun _ _ _ =>
  .ok (PermissionResult.allow none none)

/-- A registry holding only the sample permission callback. -/
def sampleAllowReg : CallbackRegistry :=
  { canUseTool := some sampleAllowCb
    hookCallbacks := []
    sdkMcpServers := [] }

/-- An in-process calculator server with one registered tool. -/
def calcServer : McpServerModel :=
  { name := "calc"
    version := none
    tools := [{ name := "add"
                description := "Add numbers"
                inputSchema := JVal.obj [("type", JVal.str "object"),
                  ("properties", JVal.obj [])]
                handler := fun _ => .ok (JVal.obj [("content",
                  JVal.arr [JVal.obj [("type", JVal.str "text"),
                    ("text", JVal.str "3")]])]) }] }

/-- A nested `tools/call` frame naming a tool the calculator lacks. -/
def missingToolCall : JVal :=
  JVal.obj [("jsonrpc", JVal.str "2.0"), ("id", JVal.num 7),
    ("method", JVal.str "tools/call"),
    ("params", JVal.obj [("name", JVal.str "missing"), ("arguments", JVal.obj [])])]

/-- A `control_response` frame for request id `req_9`. -/
def lateResponseMsg : JVal :=
  JVal.obj [("type", JVal.str "control_response"),
    ("response", JVal.obj [("subtype", JVal.str "success"),
      ("request_id", JVal.str "req_9"), ("response", JVal.obj [])])]

/-- An ordinary conversation frame. -/
def assistantFrame : JVal :=
  JVal.obj [("type", JVal.str "assistant"),
    ("message", JVal.obj [("role", JVal.str "assistant")])]

/-- A conversation frame of a type the engine has no case for. -/
def streamEventFrame : JVal :=
  JVal.obj [("type", JVal.str "stream_event"), ("event", JVal.obj [])]

/-- A frame whose type collides with the internal end sentinel. -/
def endTypedFrame : JVal := JVal.obj [("type", JVal.str "end")]

/-- Whether a modelled call raised instead of returning. -/
def exceptRaises {β : Type} : Except String β → Bool
  | .error _ => true
  | .ok _ => false

theorem lookup_setKey {α : Type} (d : List (String × α)) (k k' : String) (v : α) :
    lookupKey (setKey d k v) k' = if k = k' then some v else lookupKey d k' := by
  induction d with
  | nil => simp [setKey, lookupKey]
  | cons hd tl ih =>
    obtain ⟨k₀, v₀⟩ := hd
    by_cases h₀ : k₀ = k
    · subst h₀
      by_cases h₁ : k₀ = k'
      · subst h₁; simp [setKey, lookupKey]
      · simp [setKey, lookupKey, h₁]
    · by_cases h₁ : k₀ = k'
      · subst h₁
        simp [setKey, lookupKey, h₀, Ne.symm h₀]
      · simp [setKey, lookupKey, h₀, h₁, ih]

theorem lookup_removeKey_self {α : Type} (d : List (String × α)) (k : String) :
    lookupKey (removeKey d k) k = none := by
  induction d with
  | nil => simp [removeKey, lookupKey]
  | cons hd tl ih =>
    obtain ⟨k₀, v₀⟩ := hd
    by_cases h₀ : k₀ = k
    · simpa [removeKey, h₀] using ih
    · simp [removeKey, lookupKey, h₀, ih]

theorem removeId_not_mem (l : List String) (rid : String) : rid ∉ removeId l rid := by
  induction l with
  | nil => simp [removeId]
  | cons x rest ih =>
    by_cases h : x = rid
    · simpa [removeId, h] using ih
    · simp [removeId, h, ih, Ne.symm h]

theorem failPending_preserves (e r : String) (x : PendingResult) :
    ∀ (rids : List String) (results : List (String × PendingResult)),
      lookupKey results r = some x →
      lookupKey (failPending rids results e) r = some x := by
  intro rids
  induction rids with
  | nil => intro results h; simpa [failPending] using h
  | cons rid rest ih =>
    intro results h
    have step :
        failPending (rid :: rest) results e =
          failPending rest
            (if (lookupKey results rid).isNone then
              setKey results rid (.exn (JVal.str e)) else results) e := by
      simp [failPending, List.foldl_cons]
    rw [step]
    by_cases hrid : lookupKey results rid = none
    · by_cases heq : rid = r
      · subst heq; rw [hrid] at h; cases h
      · rw [hrid]
        refine ih _ ?_
        simp [lookup_setKey, heq, h]
    · obtain ⟨x₀, hx₀⟩ := Option.ne_none_iff_exists'.mp hrid
      rw [hx₀]
      exact ih _ h

theorem failPending_sets (e r : String) :
    ∀ (rids : List String) (results : List (String × PendingResult)),
      r ∈ rids → lookupKey results r = none →
      lookupKey (failPending rids results e) r = some (PendingResult.exn (JVal.str e)) := by
  intro rids
  induction rids with
  | nil => intro results hmem; cases hmem
  | cons rid rest ih =>
    intro results hmem hnone
    have step :
        failPending (rid :: rest) results e =
          failPending rest
            (if (lookupKey results rid).isNone then
              setKey results rid (.exn (JVal.str e)) else results) e := by
      simp [failPending, List.foldl_cons]
    rw [step]
    by_cases heq : rid = r
    · subst heq
      rw [hnone]
      exact failPending_preserves e rid _ rest _ (by simp [lookup_setKey])
    · have hrest : r ∈ rest := by
        rcases List.mem_cons.mp hmem with h | h
        · exact absurd h.symm heq
        · exact h
      by_cases hrid : lookupKey results rid = none
      · rw [hrid]
        refine ih _ hrest ?_
        simp [lookup_setKey, heq, hnone]
      · obtain ⟨x₀, hx₀⟩ := Option.ne_none_iff_exists'.mp hrid
        rw [hx₀]
        exact ih _ hrest hnone

theorem setKey_not_mem {α : Type} (d : List (String × α)) (k : String) (v : α)
    (h : k ∉ d.map Prod.fst) : setKey d k v = d ++ [(k, v)] := by
  induction d with
  | nil => simp [setKey]
  | cons hd tl ih =>
    obtain ⟨k₀, v₀⟩ := hd
    simp only [List.map_cons, List.mem_cons, not_or] at h
    simp [setKey, Ne.symm h.1, ih h.2]

theorem foldl_setKey_eq {α : Type} :
    ∀ (items acc : List (String × α)),
      (acc.map Prod.fst ++ items.map Prod.fst).Nodup →
      List.foldl (fun d kv => setKey d kv.1 kv.2) acc items = acc ++ items := by
  intro items
  induction items with
  | nil => intro acc _; simp
  | cons kv rest ih =>
    intro acc h
    have hk : kv.1 ∉ acc.map Prod.fst := by
      rcases List.nodup_append.mp h with ⟨_, _, hdisj⟩
      intro hmem
      exact hdisj hmem (by simp)
    have h' : ((acc ++ [kv]).map Prod.fst ++ rest.map Prod.fst).Nodup := by
      simpa [List.append_assoc] using h
    rw [List.foldl_cons, setKey_not_mem acc kv.1 kv.2 hk, ih (acc ++ [kv]) h']
    simp

theorem buildDict_eq_self {α : Type} (items : List (String × α))
    (h : (items.map Prod.fst).Nodup) : buildDict items = items := by
  simpa [buildDict] using foldl_setKey_eq items [] (by simpa using h)

theorem receiveMessages_no_sentinel (prior tail : List JVal)
    (hprior : ∀ m ∈ prior, typeOf m ≠ some "end" ∧ typeOf m ≠ some "error") :
    receiveMessages (prior ++ tail)
      = (prior ++ (receiveMessages tail).1, (receiveMessages tail).2) := by
  induction prior with
  | nil => simp
  | cons m rest ih =>
    have hm := hprior m (List.mem_cons_self m rest)
    have tail_eq := ih (fun x hx => hprior x (List.mem_cons_of_mem m hx))
    simp only [List.cons_append, receiveMessages]
    split
    · next heq => exact absurd heq hm.1
    · next heq => exact absurd heq hm.2
    · simp [tail_eq]

theorem writesBeforeFail_no_endInput :
    ∀ steps : List StreamStep, hasEndInput (writesBeforeFail steps).1 = false := by
  intro steps
  induction steps with
  | nil => rfl
  | cons s rest ih =>
    cases s with
    | ok f => simpa [writesBeforeFail, hasEndInput] using ih
    | fail e => rfl

theorem hasFail_writesBeforeFail :
    ∀ steps : List StreamStep,
      hasFail steps = true → (writesBeforeFail steps).2.isSome = true := by
  intro steps
  induction steps with
  | nil => intro h; cases h
  | cons s rest ih =>
    cases s with
    | ok f =>
      intro h
      have hr := ih (by simpa [hasFail] using h)
      simpa [writesBeforeFail] using hr
    | fail e => intro _; rfl

/-- C1: every inbound `control_request` the reader dispatches produces
exactly one `control_response` frame on the transport carrying the same
request id — the success shape with the handler payload when the handler
completes, and the error shape with the exception text when it raises,
in particular when the required permission or hook callback is not
registered. -/
theorem control_request_single_response (reg : CallbackRegistry) (requestId : String)
    (req : ControlRequest) :
    (∃ f : OutFrame,
      handleControlRequest reg requestId req = [f]
        ∧ frameRequestId f = requestId
        ∧ f = (match dispatchControlRequest reg req with
               | .ok d => OutFrame.controlSuccess requestId d
               | .error e => OutFrame.controlError requestId e))
    ∧ (reg.canUseTool = none →
        ∀ (tn : String) (input : JVal) (tuid : String)
          (sugg : Option (List JVal)) (bp : Option String),
          handleControlRequest reg requestId (ControlRequest.canUseTool tn input tuid sugg bp)
            = [OutFrame.controlError requestId "canUseTool callback is not provided"])
    ∧ (∀ (cid : String) (input : JVal) (tuid : Option String),
        lookupKey reg.hookCallbacks cid = none →
        handleControlRequest reg requestId (ControlRequest.hookCallback cid input tuid)
          = [OutFrame.controlError requestId ("No hook callback found for ID: " ++ cid)]) := by
  refine ⟨?_, ?_, ?_⟩
  · cases h : dispatchControlRequest reg req with
    | ok d =>
      exact ⟨OutFrame.controlSuccess requestId d, by simp [handleControlRequest, h], rfl,
        by simp [h]⟩
    | error e =>
      exact ⟨OutFrame.controlError requestId e, by simp [handleControlRequest, h], rfl,
        by simp [h]⟩
  · intro hnone tn input tuid sugg bp
    simp [handleControlRequest, dispatchControlRequest, handlePermissionRequest, hnone]
  · intro cid input tuid hnone
    simp [handleControlRequest, dispatchControlRequest, handleHookCallback, hnone]

theorem control_request_single_response_witness :
    handleControlRequest sampleHookReg "c1"
        (ControlRequest.canUseTool "Bash" (JVal.obj []) "t1" none none)
      = [OutFrame.controlError "c1" "canUseTool callback is not provided"] :=
  (control_request_single_response sampleHookReg "c1" ControlRequest.interrupt).2.1
    rfl "Bash" (JVal.obj []) "t1" none none

/-- C6: a `can_use_tool` request answered by a registered callback
serializes an allow result that lacks an updated input with the original
request input substituted under `updatedInput`, and a deny result as
`behavior`, `message`, `interrupt`. -/
theorem permission_response_serialization (reg : CallbackRegistry) (cb : CanUseToolFn)
    (toolName : String) (input : JVal) (toolUseId : String)
    (sugg : Option (List JVal)) (bp : Option String)
    (hcb : reg.canUseTool = some cb) :
    (∀ ups,
      cb toolName input
          { toolUseId := toolUseId, suggestions := sugg.getD [], blockedPath := bp }
        = .ok (PermissionResult.allow none ups) →
      dispatchControlRequest reg (ControlRequest.canUseTool toolName input toolUseId sugg bp)
        = .ok (JVal.obj ([("behavior", JVal.str "allow"), ("updatedInput", input)]
            ++ (match ups with
                | some ps => [("updatedPermissions", JVal.arr ps)]
                | none => []))))
    ∧ (∀ (m : String) (i : Bool),
      cb toolName input
          { toolUseId := toolUseId, suggestions := sugg.getD [], blockedPath := bp }
        = .ok (PermissionResult.deny m i) →
      dispatchControlRequest reg (ControlRequest.canUseTool toolName input toolUseId sugg bp)
        = .ok (JVal.obj [("behavior", JVal.str "deny"), ("message", JVal.str m),
            ("interrupt", JVal.bool i)])) := by
  constructor
  · intro ups hres
    simp [dispatchControlRequest, handlePermissionRequest, hcb, hres,
      permissionResultToDict]
  · intro m i hres
    simp [dispatchControlRequest, handlePermissionRequest, hcb, hres,
      permissionResultToDict]

theorem permission_response_serialization_witness :
    dispatchControlRequest sampleAllowReg
        (ControlRequest.canUseTool "Bash" (JVal.obj [("command", JVal.str "ls")]) "t1"
          none none)
      = .ok (JVal.obj [("behavior", JVal.str "allow"),
          ("updatedInput", JVal.obj [("command", JVal.str "ls")])]) := by
  have h :=
    (permission_response_serialization sampleAllowReg sampleAllowCb "Bash"
        (JVal.obj [("command", JVal.str "ls")]) "t1" none none rfl).1 none rfl
  simpa using h

/-- C8: a `hook_callback` request handled by a registered hook callable is
answered with the output dictionary whose keys have every trailing
underscore stripped and whose values are unchanged (stated for outputs
whose stripped keys stay distinct, as for every real hook output). -/
theorem hook_output_keys_normalized (reg : CallbackRegistry) (cid : String)
    (input : JVal) (tuid : Option String) (cb : HookCallbackFn)
    (out : List (String × JVal))
    (hreg : lookupKey reg.hookCallbacks cid = some cb)
    (hout : cb input tuid = .ok out)
    (hnodup : (out.map (fun kv => pyRstripUnderscore kv.1)).Nodup) :
    handleHookCallback reg cid input tuid
      = .ok (out.map (fun kv => (pyRstripUnderscore kv.1, kv.2))) := by
  unfold handleHookCallback
  simp only [hreg, hout]
  have : buildDict (out.map (fun kv => (pyRstripUnderscore kv.1, kv.2)))
      = out.map (fun kv => (pyRstripUnderscore kv.1, kv.2)) := by
    apply buildDict_eq_self
    simpa [List.map_map, Function.comp] using hnodup
  simp [this]

theorem hook_output_keys_normalized_witness :
    handleHookCallback sampleHookReg "hook_0" JVal.null none
      = .ok [("async", JVal.num 1), ("continue", JVal.bool true),
          ("decision", JVal.str "block")] := by
  have h := hook_output_keys_normalized sampleHookReg "hook_0" JVal.null none
    sampleHookCb
    [("async_", JVal.num 1), ("continue_", JVal.bool true), ("decision", JVal.str "block")]
    rfl rfl (by decide)
  simpa [pyRstripUnderscore] using h

/-- C2 counterexample: when the initial transport write raises, the call
delivers the transport error, yet the waiter registration made before the
write stays behind in `pending_control_responses`, contradicting the claim
that no entry remains once the call has raised. -/
theorem send_request_write_error_leaves_entry :
    (sendControlRequestRun ⟨[], []⟩ "req_1_ab" "interrupt"
        (.error "write failed") none).1 = SendOutcome.writeError "write failed"
    ∧ "req_1_ab" ∈ (sendControlRequestRun ⟨[], []⟩ "req_1_ab" "interrupt"
        (.error "write failed") none).2.pendingResponses := by
  exact ⟨rfl, by simp [sendControlRequestRun]⟩

/-- C2 (amended): when the initial transport write succeeds, exactly one of
success, protocol error, or timeout is delivered to the caller, determined
by how the wait resolved, and afterwards no entry for the request id
remains in either correlation table; moreover a `control_response` whose
request id is no longer pending is dropped by the reader without any
effect.  When the write itself raises, the registration remains (the
counterexample). -/
theorem send_request_resolution_cleanup (st : CorrelationState) (rid sub : String)
    (resolution : Option PendingResult) :
    (rid ∉ (sendControlRequestRun st rid sub (.ok ()) resolution).2.pendingResponses
      ∧ lookupKey (sendControlRequestRun st rid sub (.ok ()) resolution).2.pendingResults rid
          = none)
    ∧ (sendControlRequestRun st rid sub (.ok ()) resolution).1
        = (match resolution with
           | none => SendOutcome.timeout sub
           | some (.exn e) => SendOutcome.protocolError e
           | some (.ok resp) => SendOutcome.success (responsePayload resp))
    ∧ (∀ (st' : CorrelationState) (msg : JVal) (rid' : String),
        respRequestIdOf msg = some rid' → rid' ∉ st'.pendingResponses →
        readerHandleControlResponse st' msg = st') := by
  refine ⟨?_, ?_, ?_⟩
  · cases resolution with
    | none =>
      exact ⟨removeId_not_mem _ rid, lookup_removeKey_self _ rid⟩
    | some r =>
      cases r with
      | exn e => exact ⟨removeId_not_mem _ rid, lookup_removeKey_self _ rid⟩
      | ok resp => exact ⟨removeId_not_mem _ rid, lookup_removeKey_self _ rid⟩
  · cases resolution with
    | none => rfl
    | some r => cases r with
      | exn e => rfl
      | ok resp => rfl
  · intro st' msg rid' hid hmem
    unfold respRequestIdOf at hid
    unfold readerHandleControlResponse
    simp only [hid]
    simp [hmem]

theorem send_request_resolution_cleanup_witness :
    "req_9" ∉ (sendControlRequestRun ⟨[], []⟩ "req_9" "interrupt"
        (.ok ()) none).2.pendingResponses
    ∧ readerHandleControlResponse ⟨[], []⟩ lateResponseMsg = ⟨[], []⟩ :=
  ⟨(send_request_resolution_cleanup ⟨[], []⟩ "req_9" "interrupt" none).1.1,
   (send_request_resolution_cleanup ⟨[], []⟩ "req_9" "interrupt" none).2.2
     ⟨[], []⟩ lateResponseMsg "req_9" rfl (by simp)⟩

/-- C3: when the transport iteration raises, the reader fails every
unresolved outbound waiter with that same exception, pushes the `error`
sentinel carrying the text followed by the `end` sentinel onto the
conversation channel, and the consumer's next read through
`receive_messages` raises that error. -/
theorem reader_fatal_error_releases_waiters (st : CorrelationState) (e : String)
    (prior : List JVal)
    (hprior : ∀ m ∈ prior, typeOf m ≠ some "end" ∧ typeOf m ≠ some "error") :
    (∀ rid ∈ st.pendingResponses, lookupKey st.pendingResults rid = none →
        lookupKey (readerOnFatalError st e).1.pendingResults rid
          = some (PendingResult.exn (JVal.str e)))
    ∧ (readerOnFatalError st e).2 = [errorSentinel e, endSentinel]
    ∧ receiveMessages (prior ++ (readerOnFatalError st e).2)
        = (prior, RecvTerm.errored (JVal.str e)) := by
  refine ⟨?_, rfl, ?_⟩
  · intro rid hmem hnone
    exact failPending_sets e rid st.pendingResponses st.pendingResults hmem hnone
  · have base : receiveMessages [errorSentinel e, endSentinel]
        = ([], RecvTerm.errored (JVal.str e)) := rfl
    have h := receiveMessages_no_sentinel prior [errorSentinel e, endSentinel] hprior
    rw [base] at h
    simpa using h

theorem reader_fatal_error_releases_waiters_witness :
    lookupKey (readerOnFatalError ⟨["req_1", "req_2"], []⟩ "read failed").1.pendingResults
        "req_1" = some (PendingResult.exn (JVal.str "read failed"))
    ∧ receiveMessages (assistantFrame
          :: (readerOnFatalError ⟨["req_1", "req_2"], []⟩ "read failed").2)
        = ([assistantFrame], RecvTerm.errored (JVal.str "read failed")) := by
  have h := reader_fatal_error_releases_waiters ⟨["req_1", "req_2"], []⟩ "read failed"
    [assistantFrame] (by intro m hm; simp at hm; subst hm; exact ⟨by decide, by decide⟩)
  exact ⟨h.1 "req_1" (by simp) rfl, by simpa using h.2.2⟩

/-- C4 counterexample: a frame whose type is the reserved word `end` is
pushed onto the conversation channel unchanged, but `receive_messages`
consumes it as the end-of-stream sentinel and terminates instead of
yielding it, so the frame never reaches the consumer. -/
theorem passthrough_end_frame_not_yielded :
    routeFrame endTypedFrame = Routed.conversation false endTypedFrame
    ∧ receiveMessages [endTypedFrame] = ([], RecvTerm.ended)
    ∧ ([] : List JVal) ≠ [endTypedFrame] :=
  ⟨rfl, rfl, fun h => List.noConfusion h⟩

/-- C4 (amended): any frame whose type is none of the three control
discriminators and also not one of the reserved internal sentinel types
`end` and `error` is pushed onto the conversation channel unchanged and is
yielded verbatim to the consumer by `receive_messages`. -/
theorem passthrough_frame_yielded (msg : JVal)
    (hctrl : typeOf msg ≠ some "control_request"
      ∧ typeOf msg ≠ some "control_response"
      ∧ typeOf msg ≠ some "control_cancel_request")
    (hsent : typeOf msg ≠ some "end" ∧ typeOf msg ≠ some "error") :
    (∃ b, routeFrame msg = Routed.conversation b msg)
    ∧ (∀ rest, receiveMessages (msg :: rest)
        = (msg :: (receiveMessages rest).1, (receiveMessages rest).2)) := by
  constructor
  · unfold routeFrame
    split
    · next heq => exact absurd heq hctrl.2.1
    · next heq => exact absurd heq hctrl.1
    · next heq => exact absurd heq hctrl.2.2
    · exact ⟨true, rfl⟩
    · exact ⟨false, rfl⟩
  · intro rest
    have h := receiveMessages_no_sentinel [msg] rest
      (by intro m hm; simp at hm; subst hm; exact hsent)
    simpa using h

theorem passthrough_frame_yielded_witness :
    receiveMessages [streamEventFrame] = ([streamEventFrame], RecvTerm.starved) := by
  have h := passthrough_frame_yielded streamEventFrame
    ⟨by decide, by decide, by decide⟩ ⟨by decide, by decide⟩
  simpa [receiveMessages] using h.2 []

/-- C5 counterexample: a hooks mapping holding one event with an empty
matcher list registers zero hook matchers and no SDK MCP server is
present, yet the non-empty mapping makes `stream_input` wait for the first
result before half-closing stdin, instead of calling `end_input`
immediately after the last input frame. -/
theorem stream_close_zero_matchers_still_waits :
    hookMatcherCount (queryInitHooks (some [("PreToolUse", [])])) = 0
    ∧ streamInputTrace (queryInitHooks (some [("PreToolUse", [])])) [] []
        = [StreamAction.waitFirstResult, StreamAction.endInput]
    ∧ hasWait (streamInputTrace (queryInitHooks (some [("PreToolUse", [])])) [] [])
        = true := ⟨rfl, rfl, rfl⟩

/-- C5 (amended): the stdin-close deferral is keyed on the non-emptiness
of the internal hooks mapping (an event key with an empty matcher list
counts) or of the SDK MCP server map.  With both empty, `end_input`
immediately follows the writes; otherwise the run waits for the first
result or the stream-close timeout before `end_input`; and the reader
flags the first-result event exactly on frames of type `result`. -/
theorem stream_close_coordination (hooks : List (String × List HookMatcher))
    (sdkMcpServers : List String) (stream : List JVal) :
    (hooks = [] ∧ sdkMcpServers = [] →
      streamInputTrace hooks sdkMcpServers stream
        = stream.map StreamAction.write ++ [StreamAction.endInput])
    ∧ (hooks ≠ [] ∨ sdkMcpServers ≠ [] →
      streamInputTrace hooks sdkMcpServers stream
        = stream.map StreamAction.write
            ++ [StreamAction.waitFirstResult, StreamAction.endInput])
    ∧ (∀ msg, typeOf msg = some "result" →
        routeFrame msg = Routed.conversation true msg) := by
  refine ⟨?_, ?_, ?_⟩
  · rintro ⟨h1, h2⟩
    subst h1; subst h2
    simp [streamInputTrace]
  · intro h
    have hcond : sdkMcpServers.isEmpty = false ∨ hooks.isEmpty = false := by
      rcases h with h | h
      · right; cases hooks with
        | nil => exact absurd rfl h
        | cons a l => rfl
      · left; cases sdkMcpServers with
        | nil => exact absurd rfl h
        | cons a l => rfl
    unfold streamInputTrace
    rw [if_pos hcond]
    simp
  · intro msg h
    unfold routeFrame
    rw [h]
    rfl

theorem stream_close_coordination_witness :
    streamInputTrace [] [] [assistantFrame]
        = [StreamAction.write assistantFrame, StreamAction.endInput]
    ∧ streamInputTrace [] ["calc"] [assistantFrame]
        = [StreamAction.write assistantFrame, StreamAction.waitFirstResult,
            StreamAction.endInput] := by
  constructor
  · exact (stream_close_coordination [] [] [assistantFrame]).1 ⟨rfl, rfl⟩
  · have h := (stream_close_coordination [] ["calc"] [assistantFrame]).2.1
      (Or.inr (by simp))
    simpa using h

/-- C10: `stream_input` never propagates an exception to its caller, and
when draining the iterable or writing a frame fails, the run performs no
`end_input` call. -/
theorem stream_input_swallows_errors (hooks : List (String × List HookMatcher))
    (sdkMcpServers : List String) (steps : List StreamStep)
    (endInputResult : Except String Unit) :
    (streamInputRun hooks sdkMcpServers steps endInputResult).propagated = none
    ∧ (hasFail steps = true →
        hasEndInput (streamInputRun hooks sdkMcpServers steps endInputResult).actions
          = false) := by
  unfold streamInputRun
  rcases hw : writesBeforeFail steps with ⟨w, fo⟩
  cases fo with
  | some e =>
    refine ⟨rfl, fun _ => ?_⟩
    have h := writesBeforeFail_no_endInput steps
    rw [hw] at h
    exact h
  | none =>
    cases endInputResult with
    | ok u =>
      refine ⟨rfl, fun hf => ?_⟩
      have h := hasFail_writesBeforeFail steps hf
      rw [hw] at h
      exact absurd h (by simp)
    | error e =>
      refine ⟨rfl, fun hf => ?_⟩
      have h := hasFail_writesBeforeFail steps hf
      rw [hw] at h
      exact absurd h (by simp)

theorem stream_input_swallows_errors_witness :
    (streamInputRun [] [] [StreamStep.ok assistantFrame,
        StreamStep.fail "broken pipe"] (.ok ())).propagated = none
    ∧ hasEndInput (streamInputRun [] [] [StreamStep.ok assistantFrame,
        StreamStep.fail "broken pipe"] (.ok ())).actions = false :=
  ⟨(stream_input_swallows_errors [] [] [StreamStep.ok assistantFrame,
      StreamStep.fail "broken pipe"] (.ok ())).1,
   (stream_input_swallows_errors [] [] [StreamStep.ok assistantFrame,
      StreamStep.fail "broken pipe"] (.ok ())).2 rfl⟩

/-- C7 counterexample: a `tools/call` naming a tool absent from a server
that does have registered tools is answered with a JSON-RPC success
result — the handler wrapper installed by the external call_tool decorator
catches the raised `ValueError` and the bridge serializes it as a text
content item plus `is_error: true` — so the response carries no JSON-RPC
error object at all, and in particular no code -32601. -/
theorem unknown_tool_answered_without_error_object :
    processMcpRequest calcServer missingToolCall
      = .ok (jrpcResult (JVal.num 7) (JVal.obj
          [("content", JVal.arr [JVal.obj [("type", JVal.str "text"),
            ("text", JVal.str ("Tool " ++ sq ++ "missing" ++ sq ++ " not found"))]]),
           ("is_error", JVal.bool true)]))
    ∧ mcpErrorCode (processMcpRequest calcServer missingToolCall) = none
    ∧ (none : Option Int) ≠ some (-32601) :=
  ⟨rfl, rfl, by simp⟩

/-- C7 (amended): for a nested `tools/call` naming a tool not registered
on the addressed server (the server existing and holding registered
tools), the bridge answers with a JSON-RPC success result whose payload
carries one text content item naming the missing tool and the flag
`is_error: true`; no JSON-RPC error object is produced for a missing
tool. -/
theorem unknown_tool_is_error_result (server : McpServerModel) (name : String)
    (arguments : JVal)
    (htools : server.tools.isEmpty = false)
    (hmissing : lookupKey (buildDict (server.tools.map (fun t => (t.name, t)))) name
        = none) :
    processMcpRequest server
        (JVal.obj [("jsonrpc", JVal.str "2.0"), ("id", JVal.num 7),
          ("method", JVal.str "tools/call"),
          ("params", JVal.obj [("name", JVal.str name), ("arguments", arguments)])])
      = .ok (jrpcResult (JVal.num 7) (JVal.obj
          [("content", JVal.arr [JVal.obj [("type", JVal.str "text"),
            ("text", JVal.str ("Tool " ++ sq ++ name ++ sq ++ " not found"))]]),
           ("is_error", JVal.bool true)])) := by
  unfold processMcpRequest callToolWrapped callTool
  simp [jGetStr, jGet, lookupKey, getJsonrpcRequestId, htools, hmissing]

theorem unknown_tool_is_error_result_witness :
    processMcpRequest calcServer
        (JVal.obj [("jsonrpc", JVal.str "2.0"), ("id", JVal.num 7),
          ("method", JVal.str "tools/call"),
          ("params", JVal.obj [("name", JVal.str "missing"),
            ("arguments", JVal.obj [])])])
      = .ok (jrpcResult (JVal.num 7) (JVal.obj
          [("content", JVal.arr [JVal.obj [("type", JVal.str "text"),
            ("text", JVal.str ("Tool " ++ sq ++ "missing" ++ sq ++ " not found"))]]),
           ("is_error", JVal.bool true)])) :=
  unknown_tool_is_error_result calcServer "missing" (JVal.obj []) rfl rfl

/-- C9: options that combine a permission callback with a truthy explicit
permission-prompt-tool name, or a permission callback with a plain string
prompt, make both façades raise `ValueError` during validation, before the
engine is started and before any transport operation is performed. -/
theorem facade_rejects_permission_conflicts (o : OptionsModel) (prompt : PromptKind)
    (hcb : o.hasCanUseTool = true)
    (hconflict : optTruthy o.permissionPromptToolName = true
      ∨ prompt = PromptKind.simple) :
    exceptRaises (processQueryRun o prompt) = true
    ∧ exceptRaises (clientConnectRun o (some prompt)) = true := by
  constructor
  · cases prompt with
    | simple => simp [processQueryRun, hcb, exceptRaises]
    | streaming =>
      rcases hconflict with ht | hp
      · simp [processQueryRun, hcb, ht, exceptRaises]
      · cases hp
  · by_cases ht : optTruthy o.permissionPromptToolName = true
    · simp [clientConnectRun, validateOptions, hcb, ht, exceptRaises]
    · rcases hconflict with h | h
      · exact absurd h ht
      · subst h
        have ht' : optTruthy o.permissionPromptToolName = false := by
          simpa [Bool.not_eq_true] using ht
        simp [clientConnectRun, validateOptions, hcb, ht', exceptRaises]

theorem facade_rejects_permission_conflicts_witness :
    exceptRaises (processQueryRun ⟨true, some "mytool"⟩ PromptKind.streaming) = true
    ∧ exceptRaises (clientConnectRun ⟨true, some "mytool"⟩
        (some PromptKind.streaming)) = true :=
  facade_rejects_permission_conflicts ⟨true, some "mytool"⟩ PromptKind.streaming
    rfl (Or.inl (by decide))

end ClawdSdk
